import Mathlib

/-!
Verification of the `SolidUI` fine-grained reactive core described by this
repository's specification and by the module documentation shipped in the
repository (the `solid-ui` sections of the AI-context document).  The
implementation itself lives in the `bf6-portal-utils` npm package and is not
vendored under `src/`; every definition below is therefore modelled from the
spec and from the repository's own documentation of the module, as an
executable shallow embedding: signals, computations (effects, memos and
binding-adapter effects), the deferred flush scheduler, stores and contexts.
-/

namespace SolidUI

abbrev SigId := Nat

abbrev CompId := Nat

/-- Modelled from the spec: a Signal is an atomic reactive cell
`{ value, subscribers }`; the implementation is missing from `src/`. -/
structure Signal where
  value : Int
  subscribers : List CompId
deriving DecidableEq

/-- Body language for computation bodies: literals, tracked signal reads,
`untrack`-wrapped sub-expressions, arithmetic, a positivity assertion (to model
a body that conditionally throws) and an unconditional throw. -/
inductive RExp where
  | lit : Int → RExp
  | read : SigId → RExp
  | untrack : RExp → RExp
  | add : RExp → RExp → RExp
  | mul : RExp → RExp → RExp
  | assertPos : RExp → RExp
  | fail : RExp
deriving DecidableEq

/-- Kind of a Computation: a plain Effect, a Memo with its private result
Signal, or a binding-adapter effect writing a UI element property (the Bool
records whether the target property has a setter). -/
inductive CompKind where
  | effect : CompKind
  | memo : SigId → CompKind
  | binding : List Char → Bool → CompKind
deriving DecidableEq

/-- Modelled from the spec: a Computation
`{ body, dependencies, cleanup bookkeeping, disposed }`; the implementation is
missing from `src/`.  `observedLog` records the value observed by each run (so
its length is the number of runs), `registersCleanup` says whether the body
calls `onCleanup` on each successful run, and the three cleanup counters track
registrations, pending (not yet invoked) callbacks and total invocations. -/
structure Computation where
  kind : CompKind
  body : RExp
  deps : List SigId
  registersCleanup : Bool
  pendingCleanups : Nat
  cleanupCalls : Nat
  cleanupRegs : Nat
  observedLog : List Int
  disposed : Bool
deriving DecidableEq

/-- Modelled from the spec: the whole reactive runtime state — the signal
pool, the computation pool, the Flush Scheduler queue, the caught-error count,
the messages sent to the injected logging collaborator, and the element
properties / opaque handlers written by the Binding Adapter. -/
structure RState where
  signals : List Signal
  comps : List Computation
  pending : List CompId
  caught : Nat
  logged : List CompId
  loggingConfigured : Bool
  elemProps : List (List Char × Int)
  elemHandlers : List (List Char)
deriving DecidableEq

/-- Self-contained list indexing (returns `none` out of range). -/
def nth {α : Type} : List α → Nat → Option α
  | [], _ => none
  | x :: _, 0 => some x
  | _ :: xs, Nat.succ n => nth xs n

/-- Indexing with a default value. -/
def nthD {α : Type} (l : List α) (n : Nat) (d : α) : α := (nth l n).getD d

/-- Apply a function to the element at one index, leaving the rest alone. -/
def updAt {α : Type} : List α → Nat → (α → α) → List α
  | [], _, _ => []
  | x :: xs, 0, f => f x :: xs
  | x :: xs, Nat.succ n, f => x :: updAt xs n f

/-- Remove duplicates keeping the first occurrence of each element. -/
def dedupFirst : List Nat → List Nat
  | [] => []
  | x :: xs => x :: (dedupFirst xs).filter (fun y => y ≠ x)

/-- Modelled from the spec: the scheduler queue holds each dirtied Computation
at most once; enqueuing skips computations already queued. -/
def enqueue : List CompId → List CompId → List CompId
  | p, [] => p
  | p, c :: cs => if c ∈ p then enqueue p cs else enqueue (p ++ [c]) cs

/-- Evaluate a body against the current signal values, returning the computed
value together with the list of signals read while tracking was active, or
`none` when the body throws.  Reads inside `untrack` register no dependency. -/
def evalR : RExp → List Signal → Option (Int × List SigId)
  | RExp.lit n, _ => some (n, [])
  | RExp.read s, sigs => some ((nthD sigs s ⟨0, []⟩).value, [s])
  | RExp.untrack e, sigs =>
      match evalR e sigs with
      | none => none
      | some (v, _) => some (v, [])
  | RExp.add a b, sigs =>
      match evalR a sigs, evalR b sigs with
      | some (va, da), some (vb, db) => some (va + vb, da ++ db)
      | _, _ => none
  | RExp.mul a b, sigs =>
      match evalR a sigs, evalR b sigs with
      | some (va, da), some (vb, db) => some (va * vb, da ++ db)
      | _, _ => none
  | RExp.assertPos e, sigs =>
      match evalR e sigs with
      | none => none
      | some (v, d) => if 0 < v then some (v, d) else none
  | RExp.fail, _ => none

/-- Unsubscribe computation `c` from every signal and re-subscribe it to
exactly the signals in `nd` (auxiliary, carrying the current index). -/
def rewireAux (c : CompId) (nd : List SigId) : Nat → List Signal → List Signal
  | _, [] => []
  | i, sg :: rest =>
      (if i ∈ nd
       then { sg with subscribers := sg.subscribers.filter (fun x => x ≠ c) ++ [c] }
       else { sg with subscribers := sg.subscribers.filter (fun x => x ≠ c) })
      :: rewireAux c nd (i + 1) rest

/-- Modelled from the spec: after a run, stale dependencies are fully
unsubscribed and the fresh dependency set is registered, so `c` is a
subscriber of exactly the signals in `nd` afterwards. -/
def rewireDeps (sigs : List Signal) (c : CompId) (nd : List SigId) : List Signal :=
  rewireAux c nd 0 sigs

/-- Store a new value into a signal cell, leaving subscribers untouched. -/
def writeSigValue (sigs : List Signal) (s : SigId) (v : Int) : List Signal :=
  updAt sigs s (fun sg => { sg with value := v })

/-- Current subscribers of a signal. -/
def subsOf (sigs : List Signal) (s : SigId) : List CompId :=
  (nthD sigs s ⟨0, []⟩).subscribers

/-- Invoke and clear the cleanup callbacks registered during the previous run
(spec: done first on every re-run and on disposal). -/
def cleanupFlushed (comp : Computation) : Computation :=
  { comp with cleanupCalls := comp.cleanupCalls + comp.pendingCleanups, pendingCleanups := 0 }

/-- Replace the dependency set with the freshly tracked one. -/
def afterSuccess (comp : Computation) (nd : List SigId) : Computation :=
  { comp with deps := nd }

/-- Record a successful run: log the observed value and, when the body calls
`onCleanup`, register one fresh cleanup callback. -/
def compAfterRun (comp : Computation) (v : Int) : Computation :=
  { comp with
      observedLog := comp.observedLog ++ [v],
      pendingCleanups :=
        if comp.registersCleanup then comp.pendingCleanups + 1 else comp.pendingCleanups,
      cleanupRegs :=
        if comp.registersCleanup then comp.cleanupRegs + 1 else comp.cleanupRegs }

/-- Modelled from the spec: a body exception is caught at the Computation's
boundary, counted, reported to the logging collaborator when one is
configured, and the Computation keeps its last successfully-computed
dependency set and value. -/
def runCompFailed (st : RState) (c : CompId) (comp : Computation) : RState :=
  { st with
      comps := updAt st.comps c (fun _ => comp),
      caught := st.caught + 1,
      logged := if st.loggingConfigured then st.logged ++ [c] else st.logged }

/-- Modelled from the spec: apply the kind-specific action of a successful
run.  An Effect just records its observation; a Memo writes the result into
its private result Signal via the normal signal-set path (enqueuing that
signal's subscribers into the in-progress queue); a binding effect calls the
element property's setter, and a missing setter throws inside the effect and
is caught there. -/
def runCompSuccess (st : RState) (c : CompId) (comp : Computation) (v : Int)
    (nd : List SigId) : RState :=
  match comp.kind with
  | CompKind.effect =>
      { st with
          signals := rewireDeps st.signals c nd,
          comps := updAt st.comps c (fun _ => compAfterRun (afterSuccess comp nd) v) }
  | CompKind.memo res =>
      { st with
          signals := writeSigValue (rewireDeps st.signals c nd) res v,
          comps := updAt st.comps c (fun _ => compAfterRun (afterSuccess comp nd) v),
          pending := enqueue st.pending (subsOf (rewireDeps st.signals c nd) res) }
  | CompKind.binding name hasSetter =>
      if hasSetter then
        { st with
            signals := rewireDeps st.signals c nd,
            comps := updAt st.comps c (fun _ => compAfterRun (afterSuccess comp nd) v),
            elemProps := (name, v) :: (st.elemProps.filter (fun p => p.1 ≠ name)) }
      else
        { st with
            signals := rewireDeps st.signals c nd,
            comps := updAt st.comps c (fun _ => afterSuccess comp nd),
            caught := st.caught + 1,
            logged := if st.loggingConfigured then st.logged ++ [c] else st.logged }

/-- Modelled from the spec: run one Computation — skip it when disposed, first
invoke and clear pending cleanups, then execute the body; on success register
the exact freshly-tracked dependency set and apply the kind action, on an
exception catch it at this boundary. -/
def runComp (st : RState) (c : CompId) : RState :=
  match nth st.comps c with
  | none => st
  | some comp =>
      if comp.disposed then st
      else
        match evalR comp.body st.signals with
        | none => runCompFailed st c (cleanupFlushed comp)
        | some (v, ds) => runCompSuccess st c (cleanupFlushed comp) v (dedupFirst ds)

/-- Modelled from the spec: the Flush Scheduler loop.  Pops queued
computations one at a time; a computation already executed in this flush is
skipped (exactly-once per flush), a disposed computation is skipped, anything
else is executed (which may merge newly-dirtied computations into the
in-progress queue).  `ran` accumulates the computations executed so far in
this flush; fuel makes the recursion structural. -/
def flushAux : Nat → RState → List CompId → RState × List CompId
  | 0, st, ran => (st, ran)
  | Nat.succ n, st, ran =>
      match st.pending with
      | [] => (st, ran)
      | c :: rest =>
          if c ∈ ran then flushAux n { st with pending := rest } ran
          else
            match nth st.comps c with
            | none => flushAux n { st with pending := rest } ran
            | some comp =>
                if comp.disposed then flushAux n { st with pending := rest } ran
                else flushAux n (runComp { st with pending := rest } c) (c :: ran)

/-- Total number of subscriptions, used only to bound flush fuel. -/
def totalSubs (st : RState) : Nat :=
  st.signals.foldl (fun n sg => n + sg.subscribers.length) 0

/-- A generous fuel bound for one flush. -/
def flushFuel (st : RState) : Nat :=
  (st.pending.length + 1) * (st.comps.length + 1) * (totalSubs st + st.comps.length + 2)

/-- Modelled from the spec and the repository documentation: one flush of the
scheduler.  Per the documentation's Async Updates note the flush is deferred —
a Signal set only enqueues, and this function is the later asynchronous
propagation pass. -/
def flush (st : RState) : RState := (flushAux (flushFuel st) st []).1

/-- The computations executed by one flush, in execution order. -/
def flushTrace (st : RState) : List CompId := ((flushAux (flushFuel st) st []).2).reverse

/-- Argument of a signal setter: a plain value or an updater function. -/
inductive SetArg where
  | val : Int → SetArg
  | fn : (Int → Int) → SetArg

/-- Resolve the setter argument: call it with the previous value if it is a
function. -/
def resolveArg : SetArg → Int → Int
  | SetArg.val v, _ => v
  | SetArg.fn f, prev => f prev

/-- Modelled from the spec and the repository documentation: `set(next)` —
resolve `next` against the previous value, store the new value, and enqueue
every current subscriber into the Flush Scheduler.  The flush itself is
deferred: per the documentation's Async Updates note (all reactive updates
are asynchronous) no subscriber re-runs inside the setter's call stack. -/
def setSignal (st : RState) (s : SigId) (arg : SetArg) : RState :=
  { st with
      signals := writeSigValue st.signals s (resolveArg arg (nthD st.signals s ⟨0, []⟩).value),
      pending := enqueue st.pending (subsOf st.signals s) }

/-- Modelled from the spec: `createSignal(initial)` — a fresh cell with no
subscribers; returns the new signal's id. -/
def createSignal (st : RState) (v : Int) : RState × SigId :=
  ({ st with signals := st.signals ++ [⟨v, []⟩] }, st.signals.length)

/-- A fresh, not-yet-run computation record. -/
def mkComp (kind : CompKind) (body : RExp) (reg : Bool) : Computation :=
  { kind := kind, body := body, deps := [], registersCleanup := reg,
    pendingCleanups := 0, cleanupCalls := 0, cleanupRegs := 0,
    observedLog := [], disposed := false }

/-- Modelled from the spec: `createEffect(fn)` — creates the Computation and
runs it immediately and synchronously at creation. -/
def createEffect (st : RState) (body : RExp) (reg : Bool) : RState × CompId :=
  (runComp { st with comps := st.comps ++ [mkComp CompKind.effect body reg] } st.comps.length,
   st.comps.length)

/-- Modelled from the spec: `createMemo(fn)` — a Computation plus a private
result Signal; runs once at creation to seed the result Signal.  Downstream
readers subscribe to the result Signal, not to the memo's upstream
dependencies. -/
def createMemo (st : RState) (body : RExp) : RState × CompId × SigId :=
  ((runComp
      { st with
          signals := st.signals ++ [⟨0, []⟩],
          comps := st.comps ++ [mkComp (CompKind.memo st.signals.length) body false] }
      st.comps.length),
   st.comps.length, st.signals.length)

/-- Modelled from the spec: `dispose()` — invoke and clear cleanup callbacks,
unsubscribe from all dependencies, mark disposed.  Idempotent: disposing an
already-disposed computation changes nothing. -/
def disposeComp (st : RState) (c : CompId) : RState :=
  match nth st.comps c with
  | none => st
  | some comp =>
      if comp.disposed then st
      else
        { st with
            signals := rewireDeps st.signals c [],
            comps := updAt st.comps c (fun _ =>
              { comp with
                  cleanupCalls := comp.cleanupCalls + comp.pendingCleanups,
                  pendingCleanups := 0,
                  deps := [],
                  disposed := true }) }

/-- Association-list lookup (first binding wins). -/
def alistGet {κ α : Type} [DecidableEq κ] : List (κ × α) → κ → Option α
  | [], _ => none
  | (k, v) :: rest, q => if q = k then some v else alistGet rest q

/-- Association-list update, appending a fresh binding when absent. -/
def alistSet {κ α : Type} [DecidableEq κ] : List (κ × α) → κ → α → List (κ × α)
  | [], q, v => [(q, v)]
  | (k, w) :: rest, q, v =>
      if q = k then (k, v) :: rest else (k, w) :: alistSet rest q v

/-- Modelled from the spec: a Store — the plain underlying values indexed by
path, the lazily-populated path-to-Signal map, and the memoized nested-proxy
cache; the implementation is missing from `src/`. -/
structure StoreState where
  rootVals : List (List String × Int)
  sigOfPath : List (List String × SigId)
  proxyCache : List (List String × Nat)
  nextProxy : Nat
deriving DecidableEq

/-- Modelled from the spec: `createStore(initial)` — path signals and proxies
are created lazily, so the maps start empty. -/
def createStore (vals : List (List String × Int)) : StoreState :=
  { rootVals := vals, sigOfPath := [], proxyCache := [], nextProxy := 0 }

/-- Modelled from the spec: the read path of a Store property access — look up
or lazily create the Signal bound to that exact path (seeded from the
underlying value); the returned signal id is what a tracked read registers. -/
def ensurePathSig (st : RState) (store : StoreState) (p : List String) :
    RState × StoreState × SigId :=
  match alistGet store.sigOfPath p with
  | some s => (st, store, s)
  | none =>
      ({ st with signals := st.signals ++ [⟨(alistGet store.rootVals p).getD 0, []⟩] },
       { store with sigOfPath := alistSet store.sigOfPath p st.signals.length },
       st.signals.length)

/-- Modelled from the spec: the write path of `setStore` — a property
assignment inside the producer resolves to its path, updates the underlying
value at that path and calls that path's Signal `set()` (only that one);
a path nobody has read yet has no Signal and nothing is notified. -/
def setStorePath (st : RState) (store : StoreState) (p : List String) (v : Int) :
    RState × StoreState :=
  match alistGet store.sigOfPath p with
  | some s => (setSignal st s (SetArg.val v), { store with rootVals := alistSet store.rootVals p v })
  | none => (st, { store with rootVals := alistSet store.rootVals p v })

/-- Modelled from the spec: reading a nested composite value returns a
memoized proxy for that sub-path — the cache guarantees the same handle on
every read (referential stability). -/
def storeProxy (store : StoreState) (p : List String) : StoreState × Nat :=
  match alistGet store.proxyCache p with
  | some h => (store, h)
  | none =>
      ({ store with
          proxyCache := alistSet store.proxyCache p store.nextProxy,
          nextProxy := store.nextProxy + 1 },
       store.nextProxy)

/-- Modelled from the spec: a Context — a token with a default value and a
stack of provided values; the implementation is missing from `src/`. -/
structure CtxState (α : Type) where
  defaultValue : α
  valueStack : List α

/-- Modelled from the spec: `createContext(defaultValue)` — empty stack. -/
def createContext {α : Type} (d : α) : CtxState α :=
  { defaultValue := d, valueStack := [] }

/-- Modelled from the spec: `useContext(token)` — the top of the token's
stack, or the default when the stack is empty. -/
def useContext {α : Type} (c : CtxState α) : α :=
  c.valueStack.headD c.defaultValue

/-- Modelled from the spec: `provide(token, value, fn)` — push the value, run
`fn` synchronously, and pop on return including when `fn` throws (the
`Except` result).  The body receives the pushed context and returns the
context as it left it, and the pop is applied unconditionally, which is the
scoped-acquisition / guaranteed-release discipline. -/
def provide {α β : Type} (c : CtxState α) (v : α)
    (fn : CtxState α → CtxState α × Except Unit β) : CtxState α × Except Unit β :=
  ((fun r => ({ r.1 with valueStack := r.1.valueStack.tail }, r.2))
    (fn { c with valueStack := v :: c.valueStack }))

/-- A declarative property value handed to the Binding Adapter `h`: either a
static value or a zero-argument function (an accessor candidate). -/
inductive PropValue where
  | staticVal : Int → PropValue
  | func : RExp → PropValue
deriving DecidableEq

/-- Modelled from the spec and documentation: the adapter's opaque-passthrough
naming convention — a name matching `on[A-Z]` (lowercase "on" followed by an
uppercase letter) is never treated as an accessor. -/
def matchesOnPattern (name : List Char) : Bool :=
  match name with
  | 'o' :: 'n' :: c :: _ => c.isUpper
  | _ => false

/-- Create a binding-adapter effect for one reactive property and run it
immediately (the adapter reads the initial value to set up the element). -/
def createBindingEffect (st : RState) (name : List Char) (body : RExp)
    (hasSetter : Bool) : RState × CompId :=
  (runComp
     { st with comps := st.comps ++ [mkComp (CompKind.binding name hasSetter) body false] }
     st.comps.length,
   st.comps.length)

/-- Modelled from the spec and documentation: one property assignment handled
by `SolidUI.h`.  A function value whose name matches `on[A-Z]` is passed
through as-is (never made reactive); any other function value is wrapped as an
owned Effect that calls the property's setter with the accessor's current
value; a non-function value is assigned once. -/
def bindProp (st : RState) (name : List Char) (v : PropValue) (hasSetter : Bool) :
    RState × Option CompId :=
  match v with
  | PropValue.staticVal n =>
      if hasSetter
      then ({ st with elemProps := (name, n) :: (st.elemProps.filter (fun p => p.1 ≠ name)) }, none)
      else ({ st with caught := st.caught + 1 }, none)
  | PropValue.func body =>
      if matchesOnPattern name then
        ({ st with elemHandlers := st.elemHandlers ++ [name] }, none)
      else
        ((createBindingEffect st name body hasSetter).1,
         some (createBindingEffect st name body hasSetter).2)

/-! ### Observation helpers -/

/-- Placeholder computation for out-of-range accesses. -/
def defaultComp : Computation := mkComp CompKind.effect (RExp.lit 0) false

/-- The computation stored at an index (defaulted). -/
def compAt (st : RState) (c : CompId) : Computation := nthD st.comps c defaultComp

/-- Number of completed successful runs of a computation. -/
def runsOf (st : RState) (c : CompId) : Nat := (compAt st c).observedLog.length

/-- The values observed by a computation's successful runs, oldest first. -/
def observedAt (st : RState) (c : CompId) : List Int := (compAt st c).observedLog

/-- The current dependency set of a computation. -/
def depsOf (st : RState) (c : CompId) : List SigId := (compAt st c).deps

/-- Whether the computation at an index is disposed. -/
def compDisposed (st : RState) (c : CompId) : Bool :=
  match nth st.comps c with
  | none => false
  | some comp => comp.disposed

/-- The signal cell at an index (defaulted). -/
def sigAt (st : RState) (s : SigId) : Signal := nthD st.signals s ⟨0, []⟩

/-- The subscribers of a signal in a state. -/
def subsAt (st : RState) (s : SigId) : List CompId := (sigAt st s).subscribers

/-- The current value of a signal in a state. -/
def valueAt (st : RState) (s : SigId) : Int := (sigAt st s).value

/-- The kind of the computation at an index, if any. -/
def kindAt (st : RState) (c : CompId) : Option CompKind := (nth st.comps c).map (fun x => x.kind)

/-- The body of the computation at an index, if any. -/
def bodyAt (st : RState) (c : CompId) : Option RExp := (nth st.comps c).map (fun x => x.body)

/-- The cleanup bookkeeping invariant: invocations plus still-pending
callbacks equal registrations, i.e. no registration is ever invoked twice and
none is forgotten. -/
def cleanupOk (st : RState) (c : CompId) : Bool :=
  match nth st.comps c with
  | none => true
  | some comp => comp.cleanupCalls + comp.pendingCleanups == comp.cleanupRegs

/-- Pending (registered, not yet invoked) cleanups of a computation. -/
def pendingCleanupsAt (st : RState) (c : CompId) : Nat := (compAt st c).pendingCleanups

/-- Total cleanup invocations of a computation. -/
def cleanupCallsAt (st : RState) (c : CompId) : Nat := (compAt st c).cleanupCalls

/-- Total cleanup registrations of a computation. -/
def cleanupRegsAt (st : RState) (c : CompId) : Nat := (compAt st c).cleanupRegs

/-! ### Concrete scenarios from the spec's testable properties -/

/-- The empty runtime with logging configured. -/
def emptyState : RState :=
  { signals := [], comps := [], pending := [], caught := 0, logged := [],
    loggingConfigured := true, elemProps := [], elemHandlers := [] }

/-- Diamond scenario: signal `a = 1` (signal 0). -/
def dSt1 : RState := (createSignal emptyState 1).1

/-- Diamond scenario: memo `b = a()*2` (computation 0, result signal 1). -/
def dSt2 : RState := (createMemo dSt1 (RExp.mul (RExp.read 0) (RExp.lit 2))).1

/-- Diamond scenario: memo `c = a()*3` (computation 1, result signal 2). -/
def dSt3 : RState := (createMemo dSt2 (RExp.mul (RExp.read 0) (RExp.lit 3))).1

/-- Diamond scenario: effect reading `b()` and `c()` (computation 2). -/
def dSt4 : RState := (createEffect dSt3 (RExp.add (RExp.read 1) (RExp.read 2)) false).1

/-- Diamond scenario: after `setA(2)` (deferred flush not yet run). -/
def dSt5 : RState := setSignal dSt4 0 (SetArg.val 2)

/-- Diamond scenario: after the flush triggered by `setA(2)`. -/
def dSt6 : RState := flush dSt5

/-- End-to-end signal scenario: `count = 0` (signal 0). -/
def c2a : RState := (createSignal emptyState 0).1

/-- End-to-end signal scenario: effect pushing `count()` to its log. -/
def c2b : RState := (createEffect c2a (RExp.read 0) false).1

/-- End-to-end signal scenario: after `setCount(5)`. -/
def c2c : RState := setSignal c2b 0 (SetArg.val 5)

/-- End-to-end signal scenario: after `setCount(c => c + 1)`. -/
def c2d : RState := setSignal c2c 0 (SetArg.fn (fun p => p + 1))

/-- End-to-end signal scenario: after the deferred flush. -/
def c2e : RState := flush c2d

/-- Untrack scenario: signal `a = 7`. -/
def c3a : RState := (createSignal emptyState 7).1

/-- Untrack scenario: effect whose only read of `a` is inside `untrack`. -/
def c3b : RState := (createEffect c3a (RExp.untrack (RExp.read 0)) false).1

/-- Untrack scenario: after `setA(9)` and the deferred flush. -/
def c3c : RState := flush (setSignal c3b 0 (SetArg.val 9))

/-- Disposal scenario: signal `a = 1`. -/
def c4a : RState := (createSignal emptyState 1).1

/-- Disposal scenario: effect reading `a` (computation 0). -/
def c4b : RState := (createEffect c4a (RExp.read 0) false).1

/-- Disposal scenario: after `dispose()`. -/
def c4c : RState := disposeComp c4b 0

/-- Disposal scenario: after `setA(42)` and the deferred flush. -/
def c4d : RState := flush (setSignal c4c 0 (SetArg.val 42))

/-- Disposal scenario: the disposed effect still sitting in an in-progress
flush queue. -/
def c4q : RState := { c4c with pending := [0] }

/-- Store path key for property `a`. -/
def keyA : String := "a"

/-- Store path key for property `c`. -/
def keyC : String := "c"

/-- Store scenario: store `{a: 1, c: 2}`. -/
def s5store0 : StoreState := createStore [([keyA], 1), ([keyC], 2)]

/-- Store scenario: first read of path `a` lazily creates signal 0. -/
def s5p1 : RState × StoreState × SigId := ensurePathSig emptyState s5store0 [keyA]

/-- Store scenario: first read of path `c` lazily creates signal 1. -/
def s5p2 : RState × StoreState × SigId := ensurePathSig s5p1.1 s5p1.2.1 [keyC]

/-- Store scenario: effect reading `s.a` (computation 0). -/
def s5st3 : RState := (createEffect s5p2.1 (RExp.read 0) false).1

/-- Store scenario: effect reading `s.c` (computation 1). -/
def s5st4 : RState := (createEffect s5st3 (RExp.read 1) false).1

/-- Store scenario: after `setStore(d => d.a = 99)`. -/
def s5p3 : RState × StoreState := setStorePath s5st4 s5p2.2.1 [keyA] 99

/-- Store scenario: after the deferred flush. -/
def s5st5 : RState := flush s5p3.1

/-- Error scenario: signal `a = 1`. -/
def c6a : RState := (createSignal emptyState 1).1

/-- Error scenario: effect whose body asserts `a() > 0` (computation 0) —
it throws once `a` goes non-positive. -/
def c6b : RState := (createEffect c6a (RExp.assertPos (RExp.read 0)) false).1

/-- Error scenario: sibling effect reading `a` (computation 1). -/
def c6c : RState := (createEffect c6b (RExp.read 0) false).1

/-- Error scenario: after `setA(-5)` (deferred flush not yet run). -/
def c6d : RState := setSignal c6c 0 (SetArg.val (-5))

/-- Error scenario: after the deferred flush in which computation 0 throws. -/
def c6e : RState := flush c6d

/-- Cleanup scenario: signal `a = 0`. -/
def c7a : RState := (createSignal emptyState 0).1

/-- Cleanup scenario: effect reading `a` that registers a cleanup on every
run (computation 0). -/
def c7b : RState := (createEffect c7a (RExp.read 0) true).1

/-- Cleanup scenario: after the first re-run. -/
def c7c : RState := flush (setSignal c7b 0 (SetArg.val 1))

/-- Cleanup scenario: after the second re-run. -/
def c7d : RState := flush (setSignal c7c 0 (SetArg.val 2))

/-- Cleanup scenario: after `dispose()`. -/
def c7e : RState := disposeComp c7d 0

/-- Context scenario: default value. -/
def lightDefault : String := "light"

/-- Context scenario: a provided value. -/
def darkValue : String := "dark"

/-- Property name `onClick`. -/
def nOnClick : List Char := "onClick".data

/-- Property name `onHover`. -/
def nOnHover : List Char := "onHover".data

/-- Property name `onDelete`. -/
def nOnDelete : List Char := "onDelete".data

/-- Property name `onlyOnce`. -/
def nOnlyOnce : List Char := "onlyOnce".data

/-- Property name `once`. -/
def nOnce : List Char := "once".data

/-- Property name `online`. -/
def nOnline : List Char := "online".data

/-- Property name `width`. -/
def nWidth : List Char := "width".data

/-- Property name `height`. -/
def nHeight : List Char := "height".data

/-- Binding scenario: signal 0 with value 1. -/
def t9a : RState := (createSignal emptyState 1).1

/-- Binding scenario: reactive `width` property bound to an accessor of
signal 0 (binding computation 0, with a working setter). -/
def t9b : RState := (bindProp t9a nWidth (PropValue.func (RExp.read 0)) true).1

/-- Binding scenario: `onClick` function value — opaque passthrough. -/
def t9c : RState := (bindProp t9b nOnClick (PropValue.func (RExp.lit 99)) true).1

/-- Binding scenario: after `set(5)` and the deferred flush. -/
def t9d : RState := flush (setSignal t9c 0 (SetArg.val 5))

/-- Silent-failure scenario: reactive `height` property whose target has no
setter (binding computation 1). -/
def t10a : RState := (bindProp t9b nHeight (PropValue.func (RExp.read 0)) false).1

/-- Silent-failure scenario: after `set(5)` (deferred flush not yet run). -/
def t10b : RState := setSignal t10a 0 (SetArg.val 5)

/-- Silent-failure scenario: after the deferred flush, in which the `height`
binding effect's setter call fails and is caught. -/
def t10c : RState := flush t10b

/-! ### List helper lemmas -/

theorem nth_lt_some {α : Type} :
    ∀ (l : List α) (n : Nat), n < l.length → ∀ d : α, nth l n = some (nthD l n d) := by
  intro l
  induction l with
  | nil => intro n h d; simp at h
  | cons x xs ih =>
      intro n h d
      cases n with
      | zero => simp [nth, nthD]
      | succ m =>
          simp only [List.length_cons, Nat.succ_lt_succ_iff] at h
          simpa [nth, nthD] using ih m h d

theorem nth_updAt_ne {α : Type} :
    ∀ (l : List α) (i j : Nat) (f : α → α), j ≠ i → nth (updAt l i f) j = nth l j := by
  intro l
  induction l with
  | nil => intro i j f _; simp [updAt]
  | cons x xs ih =>
      intro i j f h
      cases i with
      | zero =>
          cases j with
          | zero => exact absurd rfl h
          | succ m => simp [updAt, nth]
      | succ k =>
          cases j with
          | zero => simp [updAt, nth]
          | succ m =>
              simp only [updAt, nth]
              exact ih k m f (fun e => h (by rw [e]))

theorem nth_updAt_self {α : Type} :
    ∀ (l : List α) (i : Nat) (f : α → α), nth (updAt l i f) i = (nth l i).map f := by
  intro l
  induction l with
  | nil => intro i f; simp [updAt, nth]
  | cons x xs ih =>
      intro i f
      cases i with
      | zero => simp [updAt, nth]
      | succ k => simpa [updAt, nth] using ih k f

theorem updAt_length {α : Type} :
    ∀ (l : List α) (i : Nat) (f : α → α), (updAt l i f).length = l.length := by
  intro l
  induction l with
  | nil => intro i f; simp [updAt]
  | cons x xs ih =>
      intro i f
      cases i with
      | zero => simp [updAt]
      | succ k => simpa [updAt] using ih k f

theorem mem_dedupFirst : ∀ (a : Nat) (l : List Nat), a ∈ dedupFirst l ↔ a ∈ l := by
  intro a l
  induction l with
  | nil => simp [dedupFirst]
  | cons x xs ih =>
      by_cases hax : a = x
      · subst hax; simp [dedupFirst]
      · simp [dedupFirst, List.mem_filter, hax, ih]

/-! ### Rewiring lemmas: exact dependency registration -/

theorem nth_rewireAux (c : CompId) (nd : List SigId) :
    ∀ (sigs : List Signal) (i k : Nat),
      nth (rewireAux c nd i sigs) k = (nth sigs k).map (fun sg =>
        if (i + k) ∈ nd
        then { sg with subscribers := sg.subscribers.filter (fun x => x ≠ c) ++ [c] }
        else { sg with subscribers := sg.subscribers.filter (fun x => x ≠ c) }) := by
  intro sigs
  induction sigs with
  | nil => intro i k; simp [rewireAux, nth]
  | cons sg rest ih =>
      intro i k
      cases k with
      | zero => simp [rewireAux, nth]
      | succ m =>
          simp only [rewireAux, nth]
          rw [ih (i + 1) m]
          have harith : i + 1 + m = i + (m + 1) := by omega
          rw [harith]

theorem mem_subs_rewire (sigs : List Signal) (c : CompId) (nd : List SigId) (s : Nat)
    (h : s < sigs.length) :
    (c ∈ (nthD (rewireDeps sigs c nd) s ⟨0, []⟩).subscribers) ↔ s ∈ nd := by
  have hsome := nth_lt_some sigs s h ⟨0, []⟩
  have hrw := nth_rewireAux c nd sigs 0 s
  rw [hsome] at hrw
  simp only [Nat.zero_add, Option.map_some] at hrw
  unfold rewireDeps
  rw [nthD, hrw]
  by_cases hmem : s ∈ nd
  · simp [hmem, List.mem_filter]
  · simp [hmem, List.mem_filter]

theorem subs_writeSig (sigs : List Signal) (s k : Nat) (v : Int) :
    (nthD (writeSigValue sigs s v) k ⟨0, []⟩).subscribers
      = (nthD sigs k ⟨0, []⟩).subscribers := by
  unfold writeSigValue nthD
  by_cases hk : k = s
  · subst hk
    rw [nth_updAt_self]
    cases nth sigs k with
    | none => rfl
    | some sg => rfl
  · rw [nth_updAt_ne sigs s k _ hk]

/-! ### runComp preservation lemmas -/

theorem runCompSuccess_comps_nth_ne (st : RState) (c x : CompId) (comp : Computation)
    (v : Int) (nd : List SigId) (h : x ≠ c) :
    nth (runCompSuccess st c comp v nd).comps x = nth st.comps x := by
  unfold runCompSuccess
  cases hk : comp.kind with
  | effect => simp [nth_updAt_ne _ _ _ _ h]
  | memo res => simp [nth_updAt_ne _ _ _ _ h]
  | binding name hs =>
      cases hs <;> simp [nth_updAt_ne _ _ _ _ h]

theorem runComp_comps_nth_ne (st : RState) (c x : CompId) (h : x ≠ c) :
    nth (runComp st c).comps x = nth st.comps x := by
  unfold runComp
  cases hc : nth st.comps c with
  | none => rfl
  | some comp =>
      cases hdis : comp.disposed with
      | true => simp [hdis]
      | false =>
          cases he : evalR comp.body st.signals with
          | none => simp [hdis, he, runCompFailed, nth_updAt_ne _ _ _ _ h]
          | some p =>
              obtain ⟨v, ds⟩ := p
              simp only [hdis, Bool.false_eq_true, if_false, he]
              exact runCompSuccess_comps_nth_ne st c x _ v (dedupFirst ds) h

theorem runComp_comps_length (st : RState) (c : CompId) :
    (runComp st c).comps.length = st.comps.length := by
  unfold runComp
  cases hc : nth st.comps c with
  | none => rfl
  | some comp =>
      cases hdis : comp.disposed with
      | true => simp [hdis]
      | false =>
          cases he : evalR comp.body st.signals with
          | none => simp [hdis, he, runCompFailed, updAt_length]
          | some p =>
              obtain ⟨v, ds⟩ := p
              simp only [hdis, Bool.false_eq_true, if_false, he]
              unfold runCompSuccess
              cases hk : (cleanupFlushed comp).kind with
              | effect => simp [updAt_length]
              | memo res => simp [updAt_length]
              | binding name hs => cases hs <;> simp [updAt_length]

theorem runComp_kindAt (st : RState) (c x : CompId) :
    kindAt (runComp st c) x = kindAt st x := by
  by_cases hx : x = c
  · subst hx
    unfold runComp
    cases hc : nth st.comps x with
    | none => rfl
    | some comp =>
        cases hdis : comp.disposed with
        | true => simp [hdis]
        | false =>
            cases he : evalR comp.body st.signals with
            | none =>
                simp [hdis, he, runCompFailed, kindAt, nth_updAt_self, hc, cleanupFlushed]
            | some p =>
                obtain ⟨v, ds⟩ := p
                simp only [hdis, Bool.false_eq_true, if_false, he]
                unfold runCompSuccess
                cases hk : (cleanupFlushed comp).kind with
                | effect =>
                    simp only [kindAt, nth_updAt_self, hc, Option.map_some, compAfterRun,
                      afterSuccess]
                    simp [cleanupFlushed]
                | memo res =>
                    simp only [kindAt, nth_updAt_self, hc, Option.map_some, compAfterRun,
                      afterSuccess]
                    simp [cleanupFlushed]
                | binding name hs =>
                    cases hs <;>
                      · simp only [Bool.false_eq_true, if_false, if_true, kindAt,
                          nth_updAt_self, hc, Option.map_some, compAfterRun, afterSuccess]
                        simp [cleanupFlushed]
  · simp [kindAt, runComp_comps_nth_ne st c x hx]

theorem runComp_bodyAt (st : RState) (c x : CompId) :
    bodyAt (runComp st c) x = bodyAt st x := by
  by_cases hx : x = c
  · subst hx
    unfold runComp
    cases hc : nth st.comps x with
    | none => rfl
    | some comp =>
        cases hdis : comp.disposed with
        | true => simp [hdis]
        | false =>
            cases he : evalR comp.body st.signals with
            | none =>
                simp [hdis, he, runCompFailed, bodyAt, nth_updAt_self, hc, cleanupFlushed]
            | some p =>
                obtain ⟨v, ds⟩ := p
                simp only [hdis, Bool.false_eq_true, if_false, he]
                unfold runCompSuccess
                cases hk : (cleanupFlushed comp).kind with
                | effect =>
                    simp [bodyAt, nth_updAt_self, hc, compAfterRun, afterSuccess, cleanupFlushed]
                | memo res =>
                    simp [bodyAt, nth_updAt_self, hc, compAfterRun, afterSuccess, cleanupFlushed]
                | binding name hs =>
                    cases hs <;>
                      simp [bodyAt, nth_updAt_self, hc, compAfterRun, afterSuccess,
                        cleanupFlushed]
  · simp [bodyAt, runComp_comps_nth_ne st c x hx]

theorem runComp_compDisposed (st : RState) (c x : CompId) :
    compDisposed (runComp st c) x = compDisposed st x := by
  by_cases hx : x = c
  · subst hx
    unfold runComp
    cases hc : nth st.comps x with
    | none => rfl
    | some comp =>
        cases hdis : comp.disposed with
        | true => simp [hdis]
        | false =>
            cases he : evalR comp.body st.signals with
            | none =>
                simp [hdis, he, runCompFailed, compDisposed, nth_updAt_self, hc, cleanupFlushed]
            | some p =>
                obtain ⟨v, ds⟩ := p
                simp only [hdis, Bool.false_eq_true, if_false, he]
                unfold runCompSuccess
                cases hk : (cleanupFlushed comp).kind with
                | effect =>
                    simp [compDisposed, nth_updAt_self, hc, compAfterRun, afterSuccess,
                      cleanupFlushed, hdis]
                | memo res =>
                    simp [compDisposed, nth_updAt_self, hc, compAfterRun, afterSuccess,
                      cleanupFlushed, hdis]
                | binding name hs =>
                    cases hs <;>
                      simp [compDisposed, nth_updAt_self, hc, compAfterRun, afterSuccess,
                        cleanupFlushed, hdis]
  · simp [compDisposed, runComp_comps_nth_ne st c x hx]

theorem runComp_cleanupOk (st : RState) (c x : CompId) (h : cleanupOk st x = true) :
    cleanupOk (runComp st c) x = true := by
  by_cases hx : x = c
  · subst hx
    unfold runComp
    cases hc : nth st.comps x with
    | none => exact h
    | some comp =>
        cases hdis : comp.disposed with
        | true => simpa [hdis] using h
        | false =>
            simp only [cleanupOk, hc, beq_iff_eq] at h
            cases he : evalR comp.body st.signals with
            | none =>
                simp [hdis, he, runCompFailed, cleanupOk, nth_updAt_self, hc, cleanupFlushed]
                omega
            | some p =>
                obtain ⟨v, ds⟩ := p
                simp only [hdis, Bool.false_eq_true, if_false, he]
                unfold runCompSuccess
                cases hk : (cleanupFlushed comp).kind with
                | effect =>
                    simp [cleanupOk, nth_updAt_self, hc, compAfterRun, afterSuccess,
                      cleanupFlushed]
                    cases hr : comp.registersCleanup <;> simp [hr] <;> omega
                | memo res =>
                    simp [cleanupOk, nth_updAt_self, hc, compAfterRun, afterSuccess,
                      cleanupFlushed]
                    cases hr : comp.registersCleanup <;> simp [hr] <;> omega
                | binding name hs =>
                    cases hs with
                    | false =>
                        simp [cleanupOk, nth_updAt_self, hc, afterSuccess, cleanupFlushed]
                        omega
                    | true =>
                        simp [cleanupOk, nth_updAt_self, hc, compAfterRun, afterSuccess,
                          cleanupFlushed]
                        cases hr : comp.registersCleanup <;> simp [hr] <;> omega
  · simpa [cleanupOk, runComp_comps_nth_ne st c x hx] using h

/-! ### setSignal, disposeComp and flushAux preservation lemmas -/

theorem setSignal_comps (st : RState) (s : SigId) (a : SetArg) :
    (setSignal st s a).comps = st.comps := rfl

theorem setSignal_compDisposed (st : RState) (s : SigId) (a : SetArg) (x : CompId) :
    compDisposed (setSignal st s a) x = compDisposed st x := rfl

theorem setSignal_cleanupOk (st : RState) (s : SigId) (a : SetArg) (x : CompId) :
    cleanupOk (setSignal st s a) x = cleanupOk st x := rfl

theorem disposeComp_comps_nth_ne (st : RState) (c x : CompId) (h : x ≠ c) :
    nth (disposeComp st c).comps x = nth st.comps x := by
  unfold disposeComp
  cases hc : nth st.comps c with
  | none => rfl
  | some comp =>
      cases hdis : comp.disposed with
      | true => simp [hdis]
      | false => simp [hdis, nth_updAt_ne _ _ _ _ h]

theorem disposeComp_of_disposed (st : RState) (c : CompId) (h : compDisposed st c = true) :
    disposeComp st c = st := by
  unfold compDisposed at h
  unfold disposeComp
  cases hc : nth st.comps c with
  | none => rfl
  | some comp => simp [hc] at h; simp [h]

theorem disposeComp_disposes (st : RState) (c : CompId) (comp : Computation)
    (hc : nth st.comps c = some comp) (hdis : comp.disposed = false) :
    compDisposed (disposeComp st c) c = true := by
  unfold disposeComp
  simp [hc, hdis, compDisposed, nth_updAt_self]

theorem disposeComp_idem (st : RState) (c : CompId) :
    disposeComp (disposeComp st c) c = disposeComp st c := by
  cases hc : nth st.comps c with
  | none =>
      have h1 : disposeComp st c = st := by
        unfold disposeComp; simp [hc]
      rw [h1, h1]
  | some comp =>
      cases hdis : comp.disposed with
      | true =>
          have h1 : disposeComp st c = st := by
            apply disposeComp_of_disposed
            unfold compDisposed
            simp [hc, hdis]
          rw [h1, h1]
      | false =>
          exact disposeComp_of_disposed _ _ (disposeComp_disposes st c comp hc hdis)

theorem disposeComp_cleanupOk (st : RState) (c x : CompId) (h : cleanupOk st x = true) :
    cleanupOk (disposeComp st c) x = true := by
  by_cases hx : x = c
  · subst hx
    unfold disposeComp
    cases hc : nth st.comps x with
    | none => exact h
    | some comp =>
        cases hdis : comp.disposed with
        | true => simpa [hdis] using h
        | false =>
            simp only [cleanupOk, hc, beq_iff_eq] at h
            simp [hdis, cleanupOk, nth_updAt_self, hc]
            omega
  · simpa [cleanupOk, disposeComp_comps_nth_ne st c x hx] using h

theorem disposeComp_pending_zero (st : RState) (c : CompId)
    (h : compDisposed st c = false) :
    pendingCleanupsAt (disposeComp st c) c = 0 := by
  unfold compDisposed at h
  unfold disposeComp
  cases hc : nth st.comps c with
  | none => simp [pendingCleanupsAt, compAt, nthD, hc, defaultComp, mkComp]
  | some comp =>
      simp only [hc] at h
      simp [h, pendingCleanupsAt, compAt, nthD, nth_updAt_self, hc]

theorem disposeComp_calls (st : RState) (c : CompId) (comp : Computation)
    (hc : nth st.comps c = some comp) (hdis : comp.disposed = false) :
    cleanupCallsAt (disposeComp st c) c = cleanupCallsAt st c + pendingCleanupsAt st c := by
  unfold disposeComp
  simp [hc, hdis, cleanupCallsAt, pendingCleanupsAt, compAt, nthD, nth_updAt_self]

theorem flushAux_nodup : ∀ (n : Nat) (st : RState) (ran : List CompId),
    ran.Nodup → ((flushAux n st ran).2).Nodup := by
  intro n
  induction n with
  | zero => intro st ran h; exact h
  | succ m ih =>
      intro st ran h
      rw [flushAux]
      split
      · exact h
      · split
        · exact ih _ _ h
        · split
          · exact ih _ _ h
          · split
            · exact ih _ _ h
            · rename_i hmem x2 comp hcc hdis
              exact ih _ _ (List.nodup_cons.mpr ⟨hmem, h⟩)

theorem flushAux_disposed_not_mem : ∀ (n : Nat) (st : RState) (ran : List CompId)
    (c : CompId), compDisposed st c = true → c ∉ ran → c ∉ (flushAux n st ran).2 := by
  intro n
  induction n with
  | zero => intro st ran c _ hr; exact hr
  | succ m ih =>
      intro st ran c hd hr
      rw [flushAux]
      split
      · exact hr
      · split
        · exact ih _ _ _ hd hr
        · split
          · exact ih _ _ _ hd hr
          · split
            · exact ih _ _ _ hd hr
            · rename_i x1 c0 rest hp hmem x2 comp0 hcc hdis
              have hne : c ≠ c0 := by
                intro hEq
                rw [hEq] at hd
                simp [compDisposed, hcc] at hd
                exact hdis (by rw [hd])
              apply ih
              · rw [runComp_compDisposed]
                exact hd
              · intro hcon
                rcases List.mem_cons.mp hcon with hEq | hIn
                · exact hne hEq
                · exact hr hIn

theorem flushAux_cleanupOk : ∀ (n : Nat) (st : RState) (ran : List CompId) (x : CompId),
    cleanupOk st x = true → cleanupOk (flushAux n st ran).1 x = true := by
  intro n
  induction n with
  | zero => intro st ran x h; exact h
  | succ m ih =>
      intro st ran x h
      rw [flushAux]
      split
      · exact h
      · split
        · exact ih _ _ _ h
        · split
          · exact ih _ _ _ h
          · split
            · exact ih _ _ _ h
            · exact ih _ _ _ (runComp_cleanupOk _ _ x h)

theorem flushAux_compDisposed : ∀ (n : Nat) (st : RState) (ran : List CompId) (x : CompId),
    compDisposed st x = true → compDisposed (flushAux n st ran).1 x = true := by
  intro n
  induction n with
  | zero => intro st ran x h; exact h
  | succ m ih =>
      intro st ran x h
      rw [flushAux]
      split
      · exact h
      · split
        · exact ih _ _ _ h
        · split
          · exact ih _ _ _ h
          · split
            · exact ih _ _ _ h
            · apply ih
              rw [runComp_compDisposed]
              exact h

/-! ### Association list and append lemmas -/

theorem alistGet_alistSet_self {κ α : Type} [DecidableEq κ] :
    ∀ (l : List (κ × α)) (k : κ) (v : α), alistGet (alistSet l k v) k = some v := by
  intro l k v
  induction l with
  | nil => simp [alistSet, alistGet]
  | cons p rest ih =>
      by_cases hk : k = p.1
      · simp [alistSet, alistGet, hk]
      · simp [alistSet, alistGet, hk, ih]

theorem alistGet_alistSet_ne {κ α : Type} [DecidableEq κ] :
    ∀ (l : List (κ × α)) (k q : κ) (v : α), q ≠ k →
      alistGet (alistSet l k v) q = alistGet l q := by
  intro l k q v hne
  induction l with
  | nil => simp [alistSet, alistGet, hne]
  | cons p rest ih =>
      by_cases hk : k = p.1
      · subst hk
        simp [alistSet, alistGet, hne]
      · by_cases hq : q = p.1
        · simp [alistSet, alistGet, hk, hq]
        · simp [alistSet, alistGet, hk, hq, ih]

theorem nth_append_self {α : Type} :
    ∀ (l : List α) (x : α), nth (l ++ [x]) l.length = some x := by
  intro l x
  induction l with
  | nil => rfl
  | cons y ys ih => simpa [nth] using ih

/-! ### runComp decomposition lemmas -/

theorem runComp_success_state (st : RState) (c : CompId) (comp : Computation) (v : Int)
    (ds : List SigId) (hc : nth st.comps c = some comp) (hdis : comp.disposed = false)
    (he : evalR comp.body st.signals = some (v, ds)) :
    runComp st c = runCompSuccess st c (cleanupFlushed comp) v (dedupFirst ds) := by
  unfold runComp
  rw [hc]
  simp [hdis, he]

theorem runComp_failed_state (st : RState) (c : CompId) (comp : Computation)
    (hc : nth st.comps c = some comp) (hdis : comp.disposed = false)
    (he : evalR comp.body st.signals = none) :
    runComp st c = runCompFailed st c (cleanupFlushed comp) := by
  unfold runComp
  rw [hc]
  simp [hdis, he]

theorem runCompSuccess_deps (st : RState) (c : CompId) (comp comp0 : Computation) (v : Int)
    (nd : List SigId) (hc : nth st.comps c = some comp0) :
    depsOf (runCompSuccess st c comp v nd) c = nd := by
  unfold runCompSuccess
  cases hk : comp.kind with
  | effect =>
      simp [depsOf, compAt, nthD, nth_updAt_self, hc, compAfterRun, afterSuccess]
  | memo res =>
      simp [depsOf, compAt, nthD, nth_updAt_self, hc, compAfterRun, afterSuccess]
  | binding name hs =>
      cases hs <;>
        simp [depsOf, compAt, nthD, nth_updAt_self, hc, compAfterRun, afterSuccess]

theorem runCompSuccess_subs (st : RState) (c : CompId) (comp : Computation) (v : Int)
    (nd : List SigId) (s : SigId) (hs : s < st.signals.length) :
    ((c ∈ subsAt (runCompSuccess st c comp v nd) s) ↔ s ∈ nd) := by
  unfold runCompSuccess
  cases hk : comp.kind with
  | effect =>
      simpa [subsAt, sigAt] using mem_subs_rewire st.signals c nd s hs
  | memo res =>
      have hw := subs_writeSig (rewireDeps st.signals c nd) res s v
      simp only [subsAt, sigAt]
      rw [hw]
      exact mem_subs_rewire st.signals c nd s hs
  | binding name hsb =>
      cases hsb <;>
        simpa [subsAt, sigAt] using mem_subs_rewire st.signals c nd s hs

theorem evalR_untrack_no_deps (e : RExp) (sigs : List Signal) (v : Int) (ds : List SigId)
    (h : evalR (RExp.untrack e) sigs = some (v, ds)) : ds = [] := by
  unfold evalR at h
  cases he : evalR e sigs with
  | none => rw [he] at h; exact absurd h (by simp)
  | some p => rw [he] at h; cases p; simp at h; exact h.2

/-! ### Store lemmas -/

theorem setStorePath_other_sig (st : RState) (store : StoreState) (p q : List String)
    (v : Int) (sq : SigId)
    (hq : alistGet store.sigOfPath q = some sq)
    (hne : alistGet store.sigOfPath p ≠ some sq) :
    nth ((setStorePath st store p v).1).signals sq = nth st.signals sq
    ∧ alistGet ((setStorePath st store p v).2).sigOfPath q = some sq := by
  unfold setStorePath
  cases hp : alistGet store.sigOfPath p with
  | none => exact ⟨rfl, hq⟩
  | some sp =>
      have hqsp : sq ≠ sp := by
        intro hEq
        exact hne (by rw [hp, hEq])
      constructor
      · simp [setSignal, writeSigValue, nth_updAt_ne _ _ _ _ hqsp]
      · exact hq

theorem storeProxy_stable (store : StoreState) (p : List String) :
    (storeProxy (storeProxy store p).1 p).2 = (storeProxy store p).2 := by
  unfold storeProxy
  cases hp : alistGet store.proxyCache p with
  | some hdl => simp [hp]
  | none => simp [hp, alistGet_alistSet_self]

/-! ### Context lemmas -/

theorem provide_restores {α β : Type} (c : CtxState α) (v : α)
    (fn : CtxState α → CtxState α × Except Unit β)
    (h : (fn { c with valueStack := v :: c.valueStack }).1.valueStack = v :: c.valueStack) :
    ((provide c v fn).1).valueStack = c.valueStack := by
  unfold provide
  simp [h]

/-! ### Binding adapter lemmas -/

theorem bindProp_passthrough (st : RState) (name : List Char) (body : RExp) (hs : Bool)
    (h : matchesOnPattern name = true) :
    (bindProp st name (PropValue.func body) hs).1
      = { st with elemHandlers := st.elemHandlers ++ [name] } := by
  unfold bindProp
  simp [h]

theorem bindProp_wraps (st : RState) (name : List Char) (body : RExp) (hs : Bool)
    (h : matchesOnPattern name = false) :
    (bindProp st name (PropValue.func body) hs).1.comps.length = st.comps.length + 1
    ∧ kindAt (bindProp st name (PropValue.func body) hs).1 st.comps.length
        = some (CompKind.binding name hs)
    ∧ bodyAt (bindProp st name (PropValue.func body) hs).1 st.comps.length = some body := by
  unfold bindProp
  simp only [h, Bool.false_eq_true, if_false]
  unfold createBindingEffect
  refine ⟨?_, ?_, ?_⟩
  · rw [runComp_comps_length]
    simp
  · rw [runComp_kindAt]
    simp [kindAt, nth_append_self, mkComp]
  · rw [runComp_bodyAt]
    simp [bodyAt, nth_append_self, mkComp]

theorem runComp_binding_no_setter_props (st : RState) (c : CompId) (name : List Char) :
    kindAt st c = some (CompKind.binding name false) →
    (runComp st c).elemProps = st.elemProps := by
  intro hk
  unfold kindAt at hk
  cases hc : nth st.comps c with
  | none => rw [hc] at hk; exact absurd hk (by simp)
  | some comp =>
      rw [hc] at hk
      simp at hk
      have hkind : comp.kind = CompKind.binding name false := hk
      unfold runComp
      rw [hc]
      cases hdis : comp.disposed with
      | true => simp [hdis]
      | false =>
          cases he : evalR comp.body st.signals with
          | none => simp [hdis, he, runCompFailed]
          | some p =>
              obtain ⟨v, ds⟩ := p
              simp only [hdis, Bool.false_eq_true, if_false, he]
              unfold runCompSuccess
              have : (cleanupFlushed comp).kind = CompKind.binding name false := hkind
              rw [this]
              simp

theorem runComp_failed_facts (st : RState) (c : CompId) (comp : Computation)
    (hc : nth st.comps c = some comp) (hdis : comp.disposed = false)
    (he : evalR comp.body st.signals = none) :
    (runComp st c).caught = st.caught + 1
    ∧ (runComp st c).signals = st.signals
    ∧ depsOf (runComp st c) c = depsOf st c
    ∧ (st.loggingConfigured = true → (runComp st c).logged = st.logged ++ [c])
    ∧ observedAt (runComp st c) c = observedAt st c := by
  rw [runComp_failed_state st c comp hc hdis he]
  refine ⟨rfl, rfl, ?_, ?_, ?_⟩
  · simp [runCompFailed, depsOf, compAt, nthD, nth_updAt_self, hc, cleanupFlushed]
  · intro hcfg
    simp [runCompFailed, hcfg]
  · simp [runCompFailed, observedAt, compAt, nthD, nth_updAt_self, hc, cleanupFlushed]

/-! ### Claim theorems -/

/-- C1: in the diamond graph (signal `a`, memos `b = a()*2` and `c = a()*3`,
one effect reading both), the effect has run exactly once immediately after
creation and exactly twice after a single `setA(2)` and its flush — the flush
runs the two memos before the effect and each distinct computation exactly
once (the trace of every flush is duplicate-free), so one upstream change
yields exactly one downstream notification through the memos' private result
signals.  (Computations 0 and 1 are the memos, 2 the effect.) -/
theorem c1_diamond_exactly_once :
    runsOf dSt4 2 = 1
    ∧ runsOf dSt6 2 = 2
    ∧ observedAt dSt6 2 = [5, 10]
    ∧ flushTrace dSt5 = [0, 1, 2]
    ∧ (∀ (n : Nat) (st : RState), ((flushAux n st []).2).Nodup) := by
  refine ⟨by decide, by decide, by decide, by decide, ?_⟩
  intro n st
  exact flushAux_nodup n st [] List.nodup_nil

/-- C2 counterexample: the claim that `set` synchronously flushes inside the
setter's own call stack (so the log is `[0, 5, 6]` right after
`setCount(5); setCount(c=>c+1)`) is false in the modelled semantics — per the
repository documentation all reactive updates are asynchronous, so the effect
has not re-run when the setters return (log still `[0]`) and after the
deferred flush it has re-run once with the final value (log `[0, 6]`), never
`[0, 5, 6]`. -/
theorem c2_sync_flush_counterexample :
    observedAt c2d 0 = [0]
    ∧ observedAt c2e 0 = [0, 6]
    ∧ ¬ (observedAt c2d 0 = [0, 5, 6])
    ∧ ¬ (observedAt c2e 0 = [0, 5, 6]) := by
  refine ⟨by decide, by decide, by decide, by decide⟩

/-- C2 amended: `set(next)` resolves `next` (applying it to the previous
value when it is a function), stores the new value and enqueues every current
subscriber into the scheduler queue, but the flush is deferred
(asynchronous): no subscribed effect has re-run when `set` returns, and after
the deferred flush the effect has re-run exactly once with the latest value,
leaving the log `[0, 6]`. -/
theorem c2_deferred_flush_amended :
    valueAt c2c 0 = 5
    ∧ valueAt c2d 0 = 6
    ∧ c2d.pending = [0]
    ∧ observedAt c2d 0 = [0]
    ∧ observedAt c2e 0 = [0, 6]
    ∧ runsOf c2e 0 = 2 := by
  refine ⟨by decide, by decide, by decide, by decide, by decide, by decide⟩

/-- C3: after every successful run of a computation, its dependency set
equals exactly the set of signals read while tracking (stale dependencies are
fully unsubscribed and the fresh set registered: the computation is a
subscriber of a signal iff it read it), reads inside `untrack` register no
dependency, and an effect whose only read of signal `a` is inside `untrack`
has an empty dependency set and is never re-run by `setA`. -/
theorem c3_exact_dependency_set :
    (∀ (st : RState) (c : CompId) (comp : Computation) (v : Int) (ds : List SigId),
        nth st.comps c = some comp → comp.disposed = false →
        evalR comp.body st.signals = some (v, ds) →
          depsOf (runComp st c) c = dedupFirst ds
          ∧ (∀ s : SigId, s < st.signals.length →
              ((c ∈ subsAt (runComp st c) s) ↔ s ∈ dedupFirst ds))
          ∧ (∀ s : SigId, s ∈ dedupFirst ds ↔ s ∈ ds))
    ∧ (∀ (e : RExp) (sigs : List Signal) (v : Int) (ds : List SigId),
        evalR (RExp.untrack e) sigs = some (v, ds) → ds = [])
    ∧ depsOf c3b 0 = []
    ∧ subsAt c3b 0 = []
    ∧ observedAt c3c 0 = [7]
    ∧ valueAt c3c 0 = 9 := by
  refine ⟨?_, evalR_untrack_no_deps, by decide, by decide, by decide, by decide⟩
  intro st c comp v ds hc hdis he
  rw [runComp_success_state st c comp v ds hc hdis he]
  exact ⟨runCompSuccess_deps st c (cleanupFlushed comp) comp v (dedupFirst ds) hc,
         fun s hs => runCompSuccess_subs st c (cleanupFlushed comp) v (dedupFirst ds) s hs,
         fun s => mem_dedupFirst s ds⟩

/-- Witness for C3 at a concrete input: the effect of the end-to-end signal
scenario reads exactly signal 0, and after a run its dependency set is
exactly `[0]`. -/
theorem c3_exact_dependency_set_witness :
    nth c2b.comps 0 = some (compAt c2b 0)
    ∧ (compAt c2b 0).disposed = false
    ∧ evalR (compAt c2b 0).body c2b.signals = some (0, [0])
    ∧ depsOf (runComp c2b 0) 0 = dedupFirst [0] := by
  refine ⟨by decide, by decide, by decide, ?_⟩
  exact (c3_exact_dependency_set.1 c2b 0 (compAt c2b 0) 0 [0]
    (by decide) (by decide) (by decide)).1

/-- C4: a disposed computation is never executed by any flush — even when it
is already sitting in an in-progress flush queue it is skipped — disposal
survives signal writes and the runs of other computations, and `dispose()` is
idempotent (a second call leaves the state unchanged, so no cleanup callback
runs again).  Concretely, after disposing the effect, `setA(42)` plus its
flush never invoke its body again. -/
theorem c4_dispose_permanent_and_idempotent :
    (∀ (n : Nat) (st : RState) (ran : List CompId) (c : CompId),
        compDisposed st c = true → c ∉ ran → c ∉ (flushAux n st ran).2)
    ∧ (∀ (st : RState) (s : SigId) (a : SetArg) (c : CompId),
        compDisposed (setSignal st s a) c = compDisposed st c)
    ∧ (∀ (st : RState) (c x : CompId),
        compDisposed st x = true → compDisposed (runComp st c) x = true)
    ∧ (∀ (st : RState) (c : CompId), disposeComp (disposeComp st c) c = disposeComp st c)
    ∧ compDisposed c4c 0 = true
    ∧ observedAt c4d 0 = [1]
    ∧ flushTrace c4q = [] := by
  refine ⟨flushAux_disposed_not_mem, fun st s a c => rfl, ?_, disposeComp_idem,
    by decide, by decide, by decide⟩
  intro st c x h
  rw [runComp_compDisposed]
  exact h

/-- Witness for C4 at a concrete input: the disposed effect queued in an
in-progress flush is skipped. -/
theorem c4_dispose_permanent_and_idempotent_witness :
    compDisposed c4q 0 = true
    ∧ (0 : CompId) ∉ ([] : List CompId)
    ∧ (0 : CompId) ∉ (flushAux 5 c4q []).2 := by
  refine ⟨by decide, by decide, ?_⟩
  exact c4_dispose_permanent_and_idempotent.1 5 c4q [] 0 (by decide) (by decide)

/-- C5: writing one store path never touches the signal bound to a different
path (its cell is unchanged and its path binding intact); reading the same
nested path twice returns the identical memoized proxy handle; and in the
concrete `{a: 1, c: 2}` scenario `setStore(d => d.a = 99)` re-runs only the
effect reading `s.a` (computation 0), not the one reading `s.c`
(computation 1). -/
theorem c5_store_path_granularity :
    (∀ (st : RState) (store : StoreState) (p q : List String) (v : Int) (sq : SigId),
        alistGet store.sigOfPath q = some sq →
        alistGet store.sigOfPath p ≠ some sq →
          nth ((setStorePath st store p v).1).signals sq = nth st.signals sq
          ∧ alistGet ((setStorePath st store p v).2).sigOfPath q = some sq)
    ∧ (∀ (store : StoreState) (p : List String),
        (storeProxy (storeProxy store p).1 p).2 = (storeProxy store p).2)
    ∧ runsOf s5st4 0 = 1
    ∧ runsOf s5st4 1 = 1
    ∧ runsOf s5st5 0 = 2
    ∧ runsOf s5st5 1 = 1
    ∧ observedAt s5st5 0 = [1, 99]
    ∧ observedAt s5st5 1 = [2]
    ∧ alistGet (s5p3.2).rootVals [keyA] = some 99 := by
  refine ⟨setStorePath_other_sig, storeProxy_stable, by decide, by decide, by decide,
    by decide, by decide, by decide, by decide⟩

/-- Witness for C5 at a concrete input: writing path `a` leaves path `c`'s
signal cell untouched. -/
theorem c5_store_path_granularity_witness :
    alistGet s5p2.2.1.sigOfPath [keyC] = some 1
    ∧ alistGet s5p2.2.1.sigOfPath [keyA] ≠ some 1
    ∧ nth ((setStorePath s5st4 s5p2.2.1 [keyA] 99).1).signals 1 = nth s5st4.signals 1 := by
  refine ⟨by decide, by decide, ?_⟩
  exact (c5_store_path_granularity.1 s5st4 s5p2.2.1 [keyA] [keyC] 99 1
    (by decide) (by decide)).1

/-- C6: a computation body that throws during a flush is caught at that
computation's boundary — the caught-error count increments, the message is
reported through the injected logging collaborator when one is configured,
the computation keeps its last successfully-computed dependency set and
observations, and the runtime state survives (flushing is total, so nothing
escapes the setter that triggered the flush) — and every sibling computation
in the same flush still executes: in the concrete scenario the throwing
effect (computation 0) and its sibling (computation 1) both appear in the
flush trace, the sibling's log grows, and exactly one error is logged. -/
theorem c6_effect_errors_contained :
    (∀ (st : RState) (c : CompId) (comp : Computation),
        nth st.comps c = some comp → comp.disposed = false →
        evalR comp.body st.signals = none →
          (runComp st c).caught = st.caught + 1
          ∧ (runComp st c).signals = st.signals
          ∧ depsOf (runComp st c) c = depsOf st c
          ∧ (st.loggingConfigured = true → (runComp st c).logged = st.logged ++ [c])
          ∧ observedAt (runComp st c) c = observedAt st c)
    ∧ c6e.caught = 1
    ∧ c6e.logged = [0]
    ∧ observedAt c6e 0 = [1]
    ∧ depsOf c6e 0 = [0]
    ∧ observedAt c6e 1 = [1, -5]
    ∧ flushTrace c6d = [0, 1] := by
  refine ⟨runComp_failed_facts, by decide, by decide, by decide, by decide, by decide,
    by decide⟩

/-- Witness for C6 at a concrete input: with signal 0 holding `-5`, the
asserting effect's body throws and the caught-error count increments. -/
theorem c6_effect_errors_contained_witness :
    nth c6d.comps 0 = some (compAt c6d 0)
    ∧ (compAt c6d 0).disposed = false
    ∧ evalR (compAt c6d 0).body c6d.signals = none
    ∧ (runComp c6d 0).caught = c6d.caught + 1 := by
  refine ⟨by decide, by decide, by decide, ?_⟩
  exact (c6_effect_errors_contained.1 c6d 0 (compAt c6d 0)
    (by decide) (by decide) (by decide)).1

/-- C7: every cleanup registration is invoked exactly once — the invariant
"invocations + still-pending = registrations" is preserved by running a
computation, by signal writes, by disposal and by whole flushes, and after
disposing a live computation nothing stays pending (so every registration has
been invoked, never twice).  Concretely, a cleanup registered on every run of
an effect that runs at creation, re-runs twice and is then disposed has been
called exactly 3 times. -/
theorem c7_cleanup_exactly_once :
    (∀ (st : RState) (c x : CompId), cleanupOk st x = true →
        cleanupOk (runComp st c) x = true)
    ∧ (∀ (st : RState) (s : SigId) (a : SetArg) (x : CompId),
        cleanupOk (setSignal st s a) x = cleanupOk st x)
    ∧ (∀ (st : RState) (c x : CompId), cleanupOk st x = true →
        cleanupOk (disposeComp st c) x = true)
    ∧ (∀ (n : Nat) (st : RState) (ran : List CompId) (x : CompId),
        cleanupOk st x = true → cleanupOk (flushAux n st ran).1 x = true)
    ∧ (∀ (st : RState) (c : CompId), compDisposed st c = false →
        pendingCleanupsAt (disposeComp st c) c = 0)
    ∧ cleanupCallsAt c7b 0 = 0
    ∧ cleanupRegsAt c7b 0 = 1
    ∧ cleanupCallsAt c7c 0 = 1
    ∧ cleanupCallsAt c7d 0 = 2
    ∧ cleanupCallsAt c7e 0 = 3
    ∧ cleanupRegsAt c7e 0 = 3
    ∧ pendingCleanupsAt c7e 0 = 0 := by
  refine ⟨runComp_cleanupOk, setSignal_cleanupOk, disposeComp_cleanupOk, flushAux_cleanupOk,
    disposeComp_pending_zero, by decide, by decide, by decide, by decide, by decide,
    by decide, by decide⟩

/-- Witness for C7 at a concrete input: the invariant holds for the
cleanup-registering effect and is preserved by running it. -/
theorem c7_cleanup_exactly_once_witness :
    cleanupOk c7b 0 = true ∧ cleanupOk (runComp c7b 0) 0 = true := by
  exact ⟨by decide, c7_cleanup_exactly_once.1 c7b 0 0 (by decide)⟩

/-- C8: `provide` pushes the value, runs the body synchronously and pops the
token's stack on return — also when the body throws (the pop is
unconditional), so any body that leaves the stack as it found it (every
balanced body does) restores the pre-call stack; `useContext` returns the top
of the stack when non-empty and the default when empty, e.g. `light` for a
context created with default `light` and no enclosing `provide`. -/
theorem c8_context_scoped_stack :
    (∀ (α β : Type) (c : CtxState α) (v : α)
        (fn : CtxState α → CtxState α × Except Unit β),
        (fn { c with valueStack := v :: c.valueStack }).1.valueStack = v :: c.valueStack →
        ((provide c v fn).1).valueStack = c.valueStack)
    ∧ (∀ (α : Type) (d : α), useContext (createContext d) = d)
    ∧ (∀ (α : Type) (d v : α) (s : List α), useContext ⟨d, v :: s⟩ = v)
    ∧ useContext (createContext lightDefault) = lightDefault
    ∧ useContext { defaultValue := lightDefault, valueStack := [darkValue] } = darkValue := by
  refine ⟨?_, fun α d => rfl, fun α d v s => rfl, rfl, rfl⟩
  intro α β c v fn h
  exact provide_restores c v fn h

/-- Witness for C8 at a concrete input: a body that immediately throws leaves
the pushed stack untouched, and `provide` still restores the empty pre-call
stack. -/
theorem c8_context_scoped_stack_witness :
    ((fun x : CtxState String => (x, (Except.error () : Except Unit Unit)))
        { createContext lightDefault with
            valueStack := darkValue :: (createContext lightDefault).valueStack }).1.valueStack
      = darkValue :: (createContext lightDefault).valueStack
    ∧ ((provide (createContext lightDefault) darkValue
        (fun x => (x, (Except.error () : Except Unit Unit)))).1).valueStack
      = (createContext lightDefault).valueStack := by
  exact ⟨rfl, c8_context_scoped_stack.1 String Unit (createContext lightDefault) darkValue
    (fun x => (x, (Except.error () : Except Unit Unit))) rfl⟩

/-- C9: a zero-argument function property whose name matches `on[A-Z]` is
passed through as-is (no computation is created, the raw handler is kept);
any other function property is wrapped as an owned effect — a fresh
binding computation holding exactly that accessor body and the property's
setter — which sets the property to the accessor's current value and updates
it on later flushes; `onClick`, `onHover`, `onDelete` match the pattern while
`onlyOnce`, `once` and `online` do not and are treated as accessors. -/
theorem c9_accessor_wrapping_and_passthrough :
    (∀ (st : RState) (name : List Char) (body : RExp) (hs : Bool),
        matchesOnPattern name = true →
        (bindProp st name (PropValue.func body) hs).1
          = { st with elemHandlers := st.elemHandlers ++ [name] })
    ∧ (∀ (st : RState) (name : List Char) (body : RExp) (hs : Bool),
        matchesOnPattern name = false →
          (bindProp st name (PropValue.func body) hs).1.comps.length = st.comps.length + 1
          ∧ kindAt (bindProp st name (PropValue.func body) hs).1 st.comps.length
              = some (CompKind.binding name hs)
          ∧ bodyAt (bindProp st name (PropValue.func body) hs).1 st.comps.length = some body)
    ∧ matchesOnPattern nOnClick = true
    ∧ matchesOnPattern nOnHover = true
    ∧ matchesOnPattern nOnDelete = true
    ∧ matchesOnPattern nOnlyOnce = false
    ∧ matchesOnPattern nOnce = false
    ∧ matchesOnPattern nOnline = false
    ∧ alistGet t9b.elemProps nWidth = some 1
    ∧ t9c.elemHandlers = [nOnClick]
    ∧ t9c.comps.length = 1
    ∧ alistGet t9d.elemProps nWidth = some 5 := by
  refine ⟨bindProp_passthrough, bindProp_wraps, by decide, by decide, by decide, by decide,
    by decide, by decide, by decide, by decide, by decide, by decide⟩

/-- Witness for C9 at concrete inputs: `onClick` is passed through untouched
while `width` is wrapped as a binding effect. -/
theorem c9_accessor_wrapping_and_passthrough_witness :
    matchesOnPattern nOnClick = true
    ∧ (bindProp t9b nOnClick (PropValue.func (RExp.lit 99)) true).1
        = { t9b with elemHandlers := t9b.elemHandlers ++ [nOnClick] }
    ∧ matchesOnPattern nWidth = false
    ∧ kindAt (bindProp t9a nWidth (PropValue.func (RExp.read 0)) true).1 t9a.comps.length
        = some (CompKind.binding nWidth true) := by
  refine ⟨by decide, ?_, by decide, ?_⟩
  · exact c9_accessor_wrapping_and_passthrough.1 t9b nOnClick (RExp.lit 99) true (by decide)
  · exact (c9_accessor_wrapping_and_passthrough.2.1 t9a nWidth (RExp.read 0) true
      (by decide)).2.1

/-- C10: when a bound reactive property's target has no setter, running its
binding effect never changes the element properties (the setter failure is
caught inside the effect, nothing escapes), and all other properties and
computations keep updating: in the concrete scenario the setterless `height`
binding raises one caught error at creation and one per flush, `height` is
never written, while the sibling `width` binding still updates to the new
value and both computations appear in the flush trace. -/
theorem c10_silent_setter_failure :
    (∀ (st : RState) (c : CompId) (name : List Char),
        kindAt st c = some (CompKind.binding name false) →
        (runComp st c).elemProps = st.elemProps)
    ∧ t10a.caught = 1
    ∧ t10c.caught = 2
    ∧ alistGet t10c.elemProps nHeight = none
    ∧ alistGet t10c.elemProps nWidth = some 5
    ∧ flushTrace t10b = [0, 1] := by
  refine ⟨runComp_binding_no_setter_props, by decide, by decide, by decide, by decide,
    by decide⟩

/-- Witness for C10 at a concrete input: running the setterless `height`
binding leaves the element properties unchanged. -/
theorem c10_silent_setter_failure_witness :
    kindAt t10b 1 = some (CompKind.binding nHeight false)
    ∧ (runComp t10b 1).elemProps = t10b.elemProps := by
  exact ⟨by decide, c10_silent_setter_failure.1 t10b 1 nHeight (by decide)⟩

end SolidUI
